import Mathlib

/-!
A verification development for the `taskgraph` repository: a shallow
embedding of the coordination framework (`framework/framework.go`) and of
the Azure blob filesystem adapter (`filesystem/azure.go`), with theorems
about epoch advancement, job shutdown, meta notification, data requests
and the filesystem entry points.

External collaborators (the etcd helpers in `pkg/etcdutil`, the HTTP
transport, the Azure SDK) are not part of the visible source; where a
definition depends on them it is modelled from the specification and its
doc comment says so.  Remote calls of the Azure adapter are embedded as
outcome parameters: the function is quantified over every possible
answer of the external service.
-/

namespace Taskgraph

/-- Coordination-store keys, scoped by job name and task id (the
conceptual key layout of the spec: epoch key, job-status key, per-task
parent-meta and child-meta keys). -/
inductive Key
  | epoch (job : String)
  | jobStatus (job : String)
  | parentMeta (job : String) (taskID : Nat)
  | childMeta (job : String) (taskID : Nat)
  deriving DecidableEq

/-- `const exitEpoch = math.MaxUint64` (framework.go:15). -/
def exitEpoch : Nat := 2 ^ 64 - 1

/-- The coordination-store state relevant to the framework: the value at
the job's epoch key and the value at the job-status key. -/
structure Store where
  epoch : Nat
  jobStatus : Option Nat
  deriving DecidableEq

/-- Result of a compare-and-swap against the epoch key. -/
inductive CASResult
  | ok
  | lostRace
  | storeError
  deriving DecidableEq

/-- Modelled from the spec: `etcdutil.CASEpoch` (not under `src/`)
performs an atomic compare-and-swap on the epoch key; it swaps iff the
current value equals `old`; a lost race (current value differs) is not
an error and leaves the store unchanged; only store unavailability is
reported as an error. -/
def casEpoch (s : Store) (avail : Bool) (old new : Nat) : Store × CASResult :=
  if avail then
    if s.epoch = old then ({ s with epoch := new }, CASResult.ok)
    else (s, CASResult.lostRace)
  else (s, CASResult.storeError)

/-- Modelled from the spec: `etcdutil.SetJobStatus` (not under `src/`)
writes the given status value at the job-status key; it fails only when
the store is unavailable. -/
def setJobStatus (s : Store) (avail : Bool) (v : Nat) : Store × Bool :=
  if avail then ({ s with jobStatus := some v }, true) else (s, false)

/-- A compare-and-swap operation as issued against the store. -/
structure CASOp where
  key : Key
  old : Nat
  new : Nat
  deriving DecidableEq

/-- The operation `incEpoch` issues (framework.go:78):
`etcdutil.CASEpoch(f.etcdClient, f.name, epoch, epoch+1)`.  The addition
is Go `uint64` addition, hence taken mod `2^64`. -/
def incEpochOp (job : String) (epoch : Nat) : CASOp :=
  { key := Key.epoch job, old := epoch, new := (epoch + 1) % 2 ^ 64 }

/-- Outcome, for the node, of a framework call that may `log.Fatalf`. -/
inductive NodeOutcome
  | proceeds (s : Store)
  | fatal
  deriving DecidableEq

/-- `incEpoch` (framework.go:77-83): CAS the epoch from `epoch` to
`epoch+1`; on an error from the store helper (`err != nil`) the node is
terminated by `log.Fatalf`. -/
def incEpoch (s : Store) (avail : Bool) (job : String) (epoch : Nat) : NodeOutcome :=
  let op := incEpochOp job epoch
  let c := casEpoch s avail op.old op.new
  match c.2 with
  | CASResult.storeError => NodeOutcome.fatal
  | _ => NodeOutcome.proceeds c.1

/-- One `incEpoch` CAS attempt against an available store, as a store
transition (a failed attempt leaves the store unchanged). -/
def advStep (s : Store) (base : Nat) : Store :=
  (casEpoch s true base ((base + 1) % 2 ^ 64)).1

/-- The successive store states produced by a sequence of `incEpoch`
attempts with the given observed base epochs. -/
def runAdv (s : Store) : List Nat → List Store
  | [] => []
  | b :: bs => advStep s b :: runAdv (advStep s b) bs

/-- The log of a sequence of `incEpoch` attempts: each entry is the
observed base together with whether the CAS succeeded. -/
def advLog (s : Store) : List Nat → List (Nat × Bool)
  | [] => []
  | b :: bs => (b, decide (s.epoch = b)) :: advLog (advStep s b) bs

/-- Outcome of `ShutdownJob`: either a panic with the given message, or
normal return with the resulting store. -/
inductive ShutdownResult
  | panicked (msg : String)
  | done (s : Store)
  deriving DecidableEq

/-- `ShutdownJob` (framework.go:110-117): CAS the epoch from the node's
observed epoch `f.epoch` to `exitEpoch`, panicking on a store error,
then set the job status to `0`, panicking on error. -/
def ShutdownJob (s : Store) (avail : Bool) (observed : Nat) : ShutdownResult :=
  let c := casEpoch s avail observed exitEpoch
  if c.2 = CASResult.storeError then
    ShutdownResult.panicked "TODO: we should do a set instead of CAS here."
  else
    let j := setJobStatus c.1 avail 0
    if j.2 then ShutdownResult.done j.1
    else ShutdownResult.panicked "SetJobStatus"

/-- A `Set` operation as issued against the store. -/
structure SetOp where
  key : Key
  value : String
  deriving DecidableEq

/-- `fmt.Sprintf("%d-%s", epoch, meta)` (framework.go:57,66): the
decimal epoch, a hyphen, then the meta string. -/
def metaValue (epoch : Nat) (meta : String) : String :=
  Nat.repr epoch ++ "-" ++ meta

/-- `flagMetaToParent` (framework.go:56-63): writes the encoded value at
`etcdutil.ParentMetaPath(f.name, f.GetTaskID())`.  The path function is
not under `src/` and is modelled from the spec as the parent-direction
key scoped to `(jobName, taskID)`. -/
def flagMetaToParent (job : String) (taskID : Nat) (meta : String) (epoch : Nat) : SetOp :=
  { key := Key.parentMeta job taskID, value := metaValue epoch meta }

/-- `flagMetaToChild` (framework.go:65-72): writes the encoded value at
`etcdutil.ChildMetaPath(f.name, f.GetTaskID())`, modelled as the
child-direction key scoped to `(jobName, taskID)`. -/
def flagMetaToChild (job : String) (taskID : Nat) (meta : String) (epoch : Nat) : SetOp :=
  { key := Key.childMeta job taskID, value := metaValue epoch meta }

/-- A parsed meta notification event. -/
structure MetaEvent where
  peerID : Nat
  epoch : Nat
  meta : String
  deriving DecidableEq

/-- Modelled from the spec: the delivery rule over the notified-set
(the field `framework.metaNotified`, framework.go:33-36; the dispatch
body is not under `src/`): an event already present is discarded,
otherwise it is marked present and the Task's meta-received callback
fires.  `deliverRun notified evs` returns the list of events for which
the callback fired, in order. -/
def deliverRun (notified : List MetaEvent) : List MetaEvent → List MetaEvent
  | [] => []
  | e :: es =>
    if e ∈ notified then deliverRun notified es
    else e :: deliverRun (e :: notified) es

/-- How many times the callback fired for a given triple. -/
def fireCount (t : MetaEvent) (fires : List MetaEvent) : Nat :=
  (fires.filter (fun e => decide (e = t))).length

/-- The pending request value, with the fields set at framework.go:90-94. -/
structure DataRequest where
  taskID : Nat
  epoch : Nat
  req : String
  deriving DecidableEq

/-- `dataRequest` (framework.go:85-95): the request value enqueued on
`dataReqtoSendChan`, with the destination task id, the epoch passed by
the caller, and the payload. -/
def dataRequest (toID : Nat) (req : String) (epoch : Nat) : DataRequest :=
  { taskID := toID, epoch := epoch, req := req }

/-- Modelled from the spec: the response matcher (not under `src/`)
matches a response to a pending request by task id and requires the
response's epoch to equal the request's captured epoch. -/
def responseMatches (pending : DataRequest) (respFrom respEpoch : Nat) : Bool :=
  (pending.taskID == respFrom) && (pending.epoch == respEpoch)

/-- Closed-flags for the channels of the framework struct
(framework.go:38-53). -/
structure Channels where
  metaStops : List Bool
  epochStop : Bool
  httpStop : Bool
  heartbeatStop : Bool
  epochPassed : Bool
  epochChan : Bool
  metaChan : Bool
  dataReqtoSendChan : Bool
  dataReqChan : Bool
  dataRespToSendChan : Bool
  dataRespChan : Bool
  deriving DecidableEq

/-- A framework node: its channels, its view of the store, and whether
its event loop has exited. -/
structure Node where
  chans : Channels
  store : Store
  exited : Bool
  deriving DecidableEq

/-- `stop` (framework.go:100-102): `close(f.epochChan)`; shuts down the
local node only and issues no store operation. -/
def stop (n : Node) : Node :=
  { n with chans := { n.chans with epochChan := true } }

/-- `Kill` (framework.go:104-106): calls `f.stop()`. -/
def Kill (n : Node) : Node := stop n

/-- Modelled from the spec: closing the node's main stop channel
terminates the event loop and tears down the dependent listeners (HTTP
server, heartbeat ticker, per-meta watches); all channels end closed,
the node exits, and no coordination-store write is issued (the event
loop body is not under `src/`). -/
def eventLoopTeardown (n : Node) : Node :=
  { chans :=
      { metaStops := n.chans.metaStops.map (fun _ => true)
        epochStop := true
        httpStop := true
        heartbeatStop := true
        epochPassed := true
        epochChan := true
        metaChan := true
        dataReqtoSendChan := true
        dataReqChan := true
        dataRespToSendChan := true
        dataRespChan := true }
    store := n.store
    exited := true }

/-- All channels of the node are closed. -/
def allClosed (c : Channels) : Prop :=
  (∀ m ∈ c.metaStops, m = true) ∧ c.epochStop = true ∧ c.httpStop = true ∧
    c.heartbeatStop = true ∧ c.epochPassed = true ∧ c.epochChan = true ∧
    c.metaChan = true ∧ c.dataReqtoSendChan = true ∧ c.dataReqChan = true ∧
    c.dataRespToSendChan = true ∧ c.dataRespChan = true

/-- Go's `strings.Split(s, sep)` for a one-character separator, on
strings embedded as character lists (azure.go:32,171). -/
def splitChar (sep : Char) : List Char → List (List Char)
  | [] => [[]]
  | c :: rest =>
    match splitChar sep rest with
    | [] => [[]]
    | w :: ws => if c = sep then [] :: w :: ws else (c :: w) :: ws

/-- The two error returns of `convertToAzurePath` (azure.go:31-40). -/
inductive PathError
  | notTwoParts
  | containerLen
  deriving DecidableEq

/-- `convertToAzurePath` (azure.go:31-40): split on `/`; error unless
exactly two parts; error unless the container part has length 32. -/
def convertToAzurePath (name : List Char) : Except PathError (List Char × List Char) :=
  match splitChar '/' name with
  | [a, b] =>
    if a.length ≠ 32 then Except.error PathError.containerLen
    else Except.ok (a, b)
  | _ => Except.error PathError.notTwoParts

/-- How the first statements of `AzureClient.Glob` (azure.go:171-175)
resolve: the split result is indexed at positions 0 and 1 before the
length check, so a missing second component is an out-of-range panic;
only afterwards can the length check return the syntax error.  The rest
of `Glob` (container and blob listing) is unreachable in both failure
cases. -/
inductive GlobFront
  | panicked
  | syntaxError
  | parsed (cnt blob : List Char)
  deriving DecidableEq

/-- `AzureClient.Glob`, front part (azure.go:171-175):
`afterSplit[0], afterSplit[1]` are read first; the
`len(afterSplit) != 2` check runs only after the indexing. -/
def globFront (pattern : List Char) : GlobFront :=
  match splitChar '/' pattern with
  | a :: b :: rest =>
    if (a :: b :: rest : List (List Char)).length ≠ 2 then GlobFront.syntaxError
    else GlobFront.parsed a b
  | _ => GlobFront.panicked

/-- The block list returned by `GetBlockList` (azure.go:134,144). -/
structure BlockList where
  committedBlocks : List String
  uncommittedBlocks : List String
  deriving DecidableEq

/-- `AzureFile.Write` (azure.go:129-160).  The four remote calls
(`GetBlockList`, `PutBlock`, `GetBlockList`, `PutBlockList`) are
embedded as outcome parameters, so the theorem quantifies over every
possible answer of the Azure service; the block-id computation
(azure.go:138-139) only feeds `PutBlock`'s argument and does not affect
the returned pair.  Return value is the Go `(int, error)` pair, with
`none` standing for `nil`. -/
def AzureFile.Write (path : List Char)
    (getBlockList1 : Except String BlockList)
    (putBlock : Option String)
    (getBlockList2 : Except String BlockList)
    (putBlockList : Option String) : Nat × Option String :=
  match convertToAzurePath path with
  | Except.error _ => (0, none)
  | Except.ok _ =>
    match getBlockList1 with
    | Except.error _ => (0, none)
    | Except.ok _ =>
      match putBlock with
      | some e => (0, some e)
      | none =>
        match getBlockList2 with
        | Except.error e => (0, some e)
        | Except.ok _ =>
          match putBlockList with
          | some e => (0, some e)
          | none => (0, none)

theorem splitChar_eq_single (sep : Char) :
    ∀ l : List Char, sep ∉ l → splitChar sep l = [l] := by
  intro l
  induction l with
  | nil => intro; rfl
  | cons c rest ih =>
    intro h
    have hc : ¬(c = sep) := by
      intro hcs
      exact h (by simp [hcs])
    have hrest : sep ∉ rest := fun hm => h (List.mem_cons_of_mem _ hm)
    simp [splitChar, ih hrest, hc]

theorem advStep_epoch (s : Store) (b : Nat) :
    (advStep s b).epoch = if s.epoch = b then (b + 1) % 2 ^ 64 else s.epoch := by
  by_cases h : s.epoch = b <;> simp [advStep, casEpoch, h]

theorem advStep_le (s : Store) (b : Nat) (hb : b + 1 < 2 ^ 64) :
    s.epoch ≤ (advStep s b).epoch := by
  rw [advStep_epoch]
  by_cases h : s.epoch = b
  · rw [if_pos h, Nat.mod_eq_of_lt hb]
    omega
  · rw [if_neg h]

theorem runAdv_chain (bs : List Nat) :
    ∀ s : Store, (∀ b ∈ bs, b + 1 < 2 ^ 64) →
      List.Chain (fun a c => a.epoch ≤ c.epoch) s (runAdv s bs) := by
  induction bs with
  | nil => intro s _; exact List.Chain.nil
  | cons b bs ih =>
    intro s h
    exact List.Chain.cons (advStep_le s b (h b (List.mem_cons_self b bs)))
      (ih (advStep s b) (fun x hx => h x (List.mem_cons_of_mem b hx)))

theorem advLog_succ_ge (bs : List Nat) :
    ∀ s : Store, (∀ b ∈ bs, b + 1 < 2 ^ 64) →
      ∀ p ∈ advLog s bs, p.2 = true → s.epoch ≤ p.1 := by
  induction bs with
  | nil => intro s _ p hp; simp [advLog] at hp
  | cons b bs ih =>
    intro s h p hp hsucc
    simp only [advLog] at hp
    rcases List.mem_cons.mp hp with rfl | htail
    · exact le_of_eq (of_decide_eq_true hsucc)
    · exact le_trans (advStep_le s b (h b (List.mem_cons_self b bs)))
        (ih (advStep s b) (fun x hx => h x (List.mem_cons_of_mem b hx)) p htail hsucc)

theorem advLog_pairwise (bs : List Nat) :
    ∀ s : Store, (∀ b ∈ bs, b + 1 < 2 ^ 64) →
      List.Pairwise (fun p q => p.2 = true → q.2 = true → p.1 ≠ q.1) (advLog s bs) := by
  induction bs with
  | nil => intro s _; simp [advLog]
  | cons b bs ih =>
    intro s h
    simp only [advLog]
    refine List.Pairwise.cons ?_ (ih (advStep s b) (fun x hx => h x (List.mem_cons_of_mem b hx)))
    intro q hq hsucc hqsucc
    have hsb : s.epoch = b := of_decide_eq_true hsucc
    have hstep : (advStep s b).epoch = b + 1 := by
      rw [advStep_epoch, if_pos hsb, Nat.mod_eq_of_lt (h b (List.mem_cons_self b bs))]
    have hge : (advStep s b).epoch ≤ q.1 :=
      advLog_succ_ge bs (advStep s b) (fun x hx => h x (List.mem_cons_of_mem b hx)) q hq hqsucc
    intro hbq
    have hbq' : b = q.1 := hbq
    rw [hstep] at hge
    omega

theorem fireCount_cons (t e : MetaEvent) (l : List MetaEvent) :
    fireCount t (e :: l) = (if e = t then 1 else 0) + fireCount t l := by
  by_cases h : e = t <;> simp [fireCount, List.filter_cons, h, Nat.add_comm]

theorem deliverRun_count (t : MetaEvent) :
    ∀ (evs notified : List MetaEvent),
      fireCount t (deliverRun notified evs) =
        if t ∈ evs ∧ t ∉ notified then 1 else 0 := by
  intro evs
  induction evs with
  | nil => intro notified; simp [deliverRun, fireCount]
  | cons e es ih =>
    intro notified
    simp only [deliverRun]
    by_cases he : e ∈ notified
    · rw [if_pos he, ih notified]
      by_cases hte : t = e
      · subst hte
        simp [he]
      · simp [List.mem_cons, hte]
    · rw [if_neg he, fireCount_cons, ih (e :: notified)]
      by_cases hte : t = e
      · subst hte
        simp [List.mem_cons, he]
      · simp [List.mem_cons, hte, Ne.symm hte]

/-- C1: `ShutdownJob` does not set the epoch key to the sentinel
unconditionally: the write is CAS-guarded on the node's observed epoch.
With the store epoch at 5 and the observed epoch 4 the CAS loses the
race, the epoch key keeps 5 rather than `exitEpoch`, and only the job
status is written — contradicting the claim (and matching the code's
own panic message, which records the intended unconditional set). -/
theorem ShutdownJob_cas_guarded :
    ShutdownJob ⟨5, none⟩ true 4 = ShutdownResult.done ⟨5, some 0⟩ ∧ (5 : Nat) ≠ exitEpoch := by
  constructor
  · rfl
  · decide

/-- C2: `incEpoch` terminates the node iff the CAS failed for a reason
other than a lost race (the store is unavailable); a lost race is not
fatal and the node proceeds on the unchanged store. -/
theorem incEpoch_fatal_iff (s : Store) (avail : Bool) (job : String) (e : Nat) :
    (incEpoch s avail job e = NodeOutcome.fatal ↔ avail = false)
    ∧ (avail = true → s.epoch ≠ e → incEpoch s avail job e = NodeOutcome.proceeds s) := by
  cases avail <;>
    by_cases h : s.epoch = e <;>
      simp [incEpoch, incEpochOp, casEpoch, h]

theorem incEpoch_fatal_iff_witness :
    ((⟨7, none⟩ : Store).epoch ≠ 3)
    ∧ incEpoch ⟨7, none⟩ true "job" 3 = NodeOutcome.proceeds ⟨7, none⟩ :=
  ⟨by decide, (incEpoch_fatal_iff ⟨7, none⟩ true "job" 3).2 rfl (by decide)⟩

/-- C3: starting from the empty notified-set, for every sequence of
incoming meta events the Task's meta-received callback fires exactly
once per distinct `(peerID, epoch, meta)` triple occurring in the
sequence; repeated watch-fires for a recorded triple are discarded. -/
theorem metaNotified_exactly_once (evs : List MetaEvent) (t : MetaEvent) :
    fireCount t (deliverRun [] evs) = if t ∈ evs then 1 else 0 := by
  have h := deliverRun_count t evs []
  simpa using h

/-- C4 (amended): for every sequence of `advanceEpoch` attempts in which
no observed base epoch equals the sentinel `exitEpoch = 2^64 - 1` (so
the uint64 increment does not wrap), the epoch sequence observed in the
store is non-decreasing, and no two successful CAS operations starting
from the same base value both succeed. -/
theorem advanceEpoch_monotone (s : Store) (bs : List Nat)
    (h : ∀ b ∈ bs, b + 1 < 2 ^ 64) :
    List.Chain (fun a c => a.epoch ≤ c.epoch) s (runAdv s bs)
    ∧ List.Pairwise (fun p q => p.2 = true → q.2 = true → p.1 ≠ q.1) (advLog s bs) :=
  ⟨runAdv_chain bs s h, advLog_pairwise bs s h⟩

theorem advanceEpoch_monotone_witness :
    (∀ b ∈ [0, 0, 1], b + 1 < 2 ^ 64)
    ∧ (List.Chain (fun a c => a.epoch ≤ c.epoch) ⟨0, none⟩ (runAdv ⟨0, none⟩ [0, 0, 1])
       ∧ List.Pairwise (fun p q => p.2 = true → q.2 = true → p.1 ≠ q.1)
          (advLog ⟨0, none⟩ [0, 0, 1])) :=
  ⟨by decide, advanceEpoch_monotone ⟨0, none⟩ [0, 0, 1] (by decide)⟩

/-- C4 counterexample: at observed epoch `exitEpoch` the uint64
increment wraps to 0, so a successful CAS from that base makes the
observed epoch sequence decrease. -/
theorem advanceEpoch_wraps :
    ¬ List.Chain (fun a c => a.epoch ≤ c.epoch) (⟨exitEpoch, none⟩ : Store)
      (runAdv ⟨exitEpoch, none⟩ [exitEpoch]) := by
  intro hchain
  have hrun : runAdv (⟨exitEpoch, none⟩ : Store) [exitEpoch] = [⟨0, none⟩] := by decide
  rw [hrun] at hchain
  have h5 : exitEpoch ≤ 0 := (List.chain_cons.mp hchain).1
  exact absurd h5 (by decide)

/-- C5: `Kill` only acts locally: after the kill and the event loop's
resulting teardown, all of the node's channels are closed and the node
has exited, while the coordination store (epoch and job status) is left
exactly as it was; `Kill` itself issues no store operation. -/
theorem Kill_is_local (n : Node) :
    allClosed (eventLoopTeardown (Kill n)).chans
    ∧ (eventLoopTeardown (Kill n)).exited = true
    ∧ (eventLoopTeardown (Kill n)).store = n.store
    ∧ (Kill n).store = n.store := by
  refine ⟨?_, rfl, rfl, rfl⟩
  unfold allClosed
  refine ⟨?_, rfl, rfl, rfl, rfl, rfl, rfl, rfl, rfl, rfl, rfl⟩
  intro m hm
  simp only [eventLoopTeardown, Kill, stop] at hm
  rcases List.mem_map.mp hm with ⟨x, _, hxe⟩
  exact hxe.symm

/-- C6: for every observed epoch `e` whose successor is in uint64 range,
`advanceEpoch`/`incEpoch` attempts exactly
`compareAndSwap(epochKey, e, e + 1)`: the old value is the observed
epoch and the new value is the observed epoch plus one. -/
theorem incEpochOp_is_cas (job : String) (e : Nat) (h : e + 1 < 2 ^ 64) :
    incEpochOp job e = { key := Key.epoch job, old := e, new := e + 1 } := by
  unfold incEpochOp
  rw [Nat.mod_eq_of_lt h]

theorem incEpochOp_is_cas_witness :
    5 + 1 < 2 ^ 64
    ∧ incEpochOp "job" 5 = { key := Key.epoch "job", old := 5, new := 6 } :=
  ⟨by norm_num, incEpochOp_is_cas "job" 5 (by norm_num)⟩

/-- C7: `dataRequest` captures the epoch passed at the moment of the
call, together with the destination task id and the payload, unchanged,
into the enqueued pending request; and the eventual response is
validated against that captured epoch (the matcher accepts exactly when
the response's epoch equals the captured one, independent of any later
cluster epoch). -/
theorem dataRequest_captures_epoch (toID : Nat) (req : String) (e respFrom respEpoch : Nat) :
    (dataRequest toID req e).epoch = e
    ∧ (dataRequest toID req e).taskID = toID
    ∧ (dataRequest toID req e).req = req
    ∧ (responseMatches (dataRequest toID req e) respFrom respEpoch = true
        ↔ toID = respFrom ∧ e = respEpoch) := by
  refine ⟨rfl, rfl, rfl, ?_⟩
  simp [responseMatches, dataRequest]

/-- C8: `flagMetaToParent` and `flagMetaToChild` each write exactly the
string `"<epoch>-<meta>"` (decimal epoch, hyphen, meta string) to the
store path scoped to the job name, the calling task's id and the
respective direction; the two directions use distinct paths. -/
theorem flagMeta_writes (job : String) (taskID : Nat) (m : String) (e : Nat) :
    flagMetaToParent job taskID m e
      = { key := Key.parentMeta job taskID, value := Nat.repr e ++ "-" ++ m }
    ∧ flagMetaToChild job taskID m e
      = { key := Key.childMeta job taskID, value := Nat.repr e ++ "-" ++ m }
    ∧ Key.parentMeta job taskID ≠ Key.childMeta job taskID := by
  refine ⟨rfl, rfl, ?_⟩
  intro h
  exact Key.noConfusion h

/-- C9: for every pattern with no `/` separator, `AzureClient.Glob`
reads the second component of the split result before the length check
and panics with an out-of-range index instead of returning its syntax
error. -/
theorem Glob_panics_without_slash (p : List Char) (hp : '/' ∉ p) :
    globFront p = GlobFront.panicked := by
  have h := splitChar_eq_single '/' p hp
  simp [globFront, h]

theorem Glob_panics_without_slash_witness :
    ('/' ∉ ['a', 'b', 'c']) ∧ globFront ['a', 'b', 'c'] = GlobFront.panicked :=
  ⟨by decide, Glob_panics_without_slash ['a', 'b', 'c'] (by decide)⟩

/-- C10: `AzureFile.Write` always reports 0 written bytes, and when the
path fails to parse as container/blob, or the initial block-list
retrieval fails, it returns `(0, nil)` — indistinguishable from success
at the `io.Writer` interface. -/
theorem Write_zero_and_nil (path : List Char) (g1 : Except String BlockList)
    (pb : Option String) (g2 : Except String BlockList) (pbl : Option String) :
    (AzureFile.Write path g1 pb g2 pbl).1 = 0
    ∧ (∀ er, convertToAzurePath path = Except.error er →
        AzureFile.Write path g1 pb g2 pbl = (0, none))
    ∧ (∀ s, g1 = Except.error s →
        AzureFile.Write path g1 pb g2 pbl = (0, none)) := by
  refine ⟨?_, ?_, ?_⟩
  · cases hc : convertToAzurePath path <;>
      cases g1 <;> cases pb <;> cases g2 <;> cases pbl <;>
        simp [AzureFile.Write, hc]
  · intro er her
    cases g1 <;> cases pb <;> cases g2 <;> cases pbl <;> simp [AzureFile.Write, her]
  · intro s hs
    subst hs
    cases hc : convertToAzurePath path <;> simp [AzureFile.Write, hc]

theorem Write_zero_and_nil_witness :
    convertToAzurePath ['a'] = Except.error PathError.notTwoParts
    ∧ AzureFile.Write ['a'] (Except.ok ⟨[], []⟩) none (Except.ok ⟨[], []⟩) none = (0, none) :=
  ⟨rfl, (Write_zero_and_nil ['a'] (Except.ok ⟨[], []⟩) none (Except.ok ⟨[], []⟩) none).2.1
      PathError.notTwoParts rfl⟩

end Taskgraph
